import Mathlib

/-!
# Process telemetry modules: embedding and verification

A shallow embedding of the three kernel modules of the repository

* `process_telemetry_v2.c` (counters, per-task lifetime, top-5 table),
* `process_telemetry.c` (counters and last-seen fields),
* `k_proc_observer.c` (one counter and last-seen fields),

followed by theorems about them.  Module globals become fields of a state
record, the notifier callback becomes a function from a state and an event to
a state and a return code.  The kernel's task memory is a map from task
addresses to `task_struct` values; the callback's `void *data` is such an
address.  The value returned by `ktime_get_ns()` during a call is carried by
the event.
-/

/-! ## Kernel-side types and constants shared by the three modules -/

/-- Length of `task_struct.comm` (`TASK_COMM_LEN` of `linux/sched.h`). -/
def TASK_COMM_LEN : Nat := 16

/-- Notifier action for a created process (`linux/cn_proc.h`). -/
def PROC_EVENT_FORK : Nat := 0x00000001

/-- Notifier action for a terminated process (`linux/cn_proc.h`). -/
def PROC_EVENT_EXIT : Nat := 0x80000000

/-- Return code of a notifier callback (`linux/notifier.h`). -/
def NOTIFY_OK : Nat := 0x0001

/-- Number of values of a `u64`. -/
def U64_MOD : Nat := 2 ^ 64

/-- Number of values of an `unsigned long` (64-bit kernel). -/
def ULONG_MOD : Nat := 2 ^ 64

/-- The fields of `struct task_struct` the modules touch: `pid`, the uid read
by `task_uid`, the `comm` byte array and `start_time` (a `u64`). -/
structure task_struct where
  pid : Int
  uid : Nat
  comm : List Nat
  start_time : Nat
deriving DecidableEq, Repr

/-- One call of a notifier callback: the `action` argument, the `data`
argument (address of the task) and the clock value (a `u64`, in nanoseconds)
that `ktime_get_ns()` returns during the call. -/
structure Event where
  action : Nat
  data : Nat
  now : Nat
deriving DecidableEq, Repr

/-- Unsigned 64-bit subtraction `a - b`, wrapping modulo `2 ^ 64`. -/
def u64_sub (a b : Nat) : Nat := (a % U64_MOD + (U64_MOD - b % U64_MOD)) % U64_MOD

/-- Increment of an `unsigned long`, wrapping modulo `2 ^ 64`. -/
def ulong_inc (n : Nat) : Nat := (n + 1) % ULONG_MOD

/-- The C library's `strncpy(dest, src, n)`, as the `n` bytes left in `dest`:
the bytes of `src` before its first NUL (at most `n` of them), then NUL
padding up to `n`.  The callers pass `task->comm`, an array of `n` bytes. -/
def strncpy (src : List Nat) (n : Nat) : List Nat :=
  let body := (src.take n).takeWhile (fun c => c != 0)
  body ++ List.replicate (n - body.length) 0

/-- The C string held in a byte array: the bytes before the first NUL. -/
def cstring (bytes : List Nat) : List Nat := bytes.takeWhile (fun c => c != 0)

/-! ## `process_telemetry_v2.c` -/

namespace process_telemetry_v2

/-- Capacity of the `top` table. -/
def MAX_TOP : Nat := 5

/-- The C `struct proc_record`. -/
structure proc_record where
  pid : Int
  uid : Nat
  comm : List Nat
  lifetime_ns : Nat
deriving DecidableEq, Repr

/-- A zero-initialised `proc_record`, as static storage holds at load. -/
def zero_record : proc_record :=
  { pid := 0, uid := 0, comm := List.replicate TASK_COMM_LEN 0, lifetime_ns := 0 }

instance : Inhabited proc_record := ⟨zero_record⟩

/-- The array type `struct proc_record [MAX_TOP]`. -/
abbrev top_array : Type := { l : List proc_record // l.length = MAX_TOP }

/-- Array read `top[i]`. -/
def top_array.get (top : top_array) (i : Nat) : proc_record := top.val.getD i zero_record

/-- Array write `top[i] = r`. -/
def top_array.set (top : top_array) (i : Nat) (r : proc_record) : top_array :=
  ⟨top.val.set i r, by rw [List.length_set]; exact top.property⟩

/-- The module's globals (`top`, `fork_count`, `exit_count`) together with the
kernel's task memory, which the FORK branch writes to. -/
structure State where
  top : top_array
  fork_count : Nat
  exit_count : Nat
  tasks : Nat → task_struct

/-- State at module load over a task memory: zeroed static storage. -/
def init (tasks : Nat → task_struct) : State :=
  { top := ⟨List.replicate MAX_TOP zero_record, by simp⟩
    fork_count := 0
    exit_count := 0
    tasks := tasks }

/-- The scan of `update_top_processes`:
`for (i = 1; i < MAX_TOP; i++) if (top[i].lifetime_ns < top[min].lifetime_ns) min = i;`
started at `min = 0`.  Returns the final `min`. -/
def find_min (top : top_array) : Nat :=
  (List.range' 1 (MAX_TOP - 1)).foldl
    (fun min i => if (top.get i).lifetime_ns < (top.get min).lifetime_ns then i else min) 0

/-- The record the body of the `if` in `update_top_processes` stores. -/
def record_of (task : task_struct) (lifetime : Nat) : proc_record :=
  { pid := task.pid
    uid := task.uid
    comm := strncpy task.comm TASK_COMM_LEN
    lifetime_ns := lifetime }

/-- The C `update_top_processes(task, lifetime)` acting on `top`. -/
def update_top_processes (top : top_array) (task : task_struct) (lifetime : Nat) : top_array :=
  let min := find_min top
  if lifetime > (top.get min).lifetime_ns then
    top.set min (record_of task lifetime)
  else
    top

/-- The lifetime the EXIT branch computes:
`ktime_get_ns() - task->start_time` in `u64`. -/
def exit_lifetime (s : State) (e : Event) : Nat :=
  u64_sub e.now (s.tasks e.data).start_time

/-- The C `process_event(nb, action, data)`: the new state and the return
code.  The spinlock is taken on entry and released before returning. -/
def process_event (s : State) (e : Event) : State × Nat :=
  if e.action = PROC_EVENT_FORK then
    ({ s with
        fork_count := ulong_inc s.fork_count
        tasks := fun p => if p = e.data then { s.tasks p with start_time := e.now } else s.tasks p },
      NOTIFY_OK)
  else if e.action = PROC_EVENT_EXIT then
    let lifetime := exit_lifetime s e
    ({ s with
        exit_count := ulong_inc s.exit_count
        top := update_top_processes s.top (s.tasks e.data) lifetime },
      NOTIFY_OK)
  else
    (s, NOTIFY_OK)

/-- State after delivering the events one after another. -/
def run (s : State) (es : List Event) : State :=
  es.foldl (fun s e => (process_event s e).1) s

/-- One line of the slot loop of `telemetry_show`: the rank printed (`i + 1`)
and the slot printed.  The lifetime stays in nanoseconds; its rendering in
seconds is left out. -/
structure show_line where
  rank : Nat
  slot : proc_record
deriving DecidableEq, Repr

/-- What `telemetry_show` writes to the seq file: the two counters of the
header and the lines of the slot loop. -/
structure show_output where
  forks : Nat
  exits : Nat
  lines : List show_line
deriving DecidableEq, Repr

/-- The slot loop of `telemetry_show`: slots with `lifetime_ns == 0` are
skipped, the others are printed in index order. -/
def show_lines (top : top_array) : List show_line :=
  (List.range MAX_TOP).filterMap
    (fun i => if (top.get i).lifetime_ns = 0 then none else some ⟨i + 1, top.get i⟩)

/-- The C `telemetry_show(m, v)`: the state it leaves (it writes no global),
the output and the return code `0`. -/
def telemetry_show (s : State) : State × show_output × Int :=
  (s, { forks := s.fork_count, exits := s.exit_count, lines := show_lines s.top }, 0)

/-! ### Observations on runs, used to state the properties -/

/-- Lifetimes held in the slots of `top`, in index order. -/
def lifetimes (top : top_array) : List Nat := top.val.map (fun r => r.lifetime_ns)

/-- The slots the read side treats as filled: those with `lifetime_ns != 0`. -/
def filled (top : top_array) : List proc_record :=
  top.val.filter (fun r => r.lifetime_ns != 0)

/-- The slot the body of the `if` in `update_top_processes` writes, when the
condition holds; `none` when the body is skipped. -/
def admit_slot (top : top_array) (lifetime : Nat) : Option Nat :=
  if lifetime > (top.get (find_min top)).lifetime_ns then some (find_min top) else none

/-- The lifetimes computed by the EXIT events of a run, in order of arrival. -/
def exit_lifetimes : State → List Event → List Nat
  | _, [] => []
  | s, e :: es =>
    if e.action = PROC_EVENT_EXIT then
      exit_lifetime s e :: exit_lifetimes (process_event s e).1 es
    else
      exit_lifetimes (process_event s e).1 es

/-- The indices of the slots written during a run, one entry per admitted
record, in order of arrival. -/
def written_slots : State → List Event → List Nat
  | _, [] => []
  | s, e :: es =>
    if e.action = PROC_EVENT_EXIT then
      (admit_slot s.top (exit_lifetime s e)).toList ++ written_slots (process_event s e).1 es
    else
      written_slots (process_event s e).1 es

/-- The `k` largest values of a list, with multiplicity: the first `k` entries
of the list sorted in descending order. -/
def largest (k : Nat) (l : List Nat) : List Nat :=
  (l.insertionSort (fun a b => a ≥ b)).take k

/-- Retention invariant: the lifetimes `T` in the table together with a list
`D` of dropped values make up all offered lifetimes `M` plus the `MAX_TOP`
initial zeros, and no dropped value exceeds a retained one. -/
def Retains (T M : List Nat) : Prop :=
  ∃ D : List Nat, List.Perm (M ++ List.replicate MAX_TOP 0) (T ++ D) ∧
    ∀ a ∈ T, ∀ b ∈ D, b ≤ a

/-- An EXIT event for the task at address `task` at clock value `now`. -/
def exit_event (task now : Nat) : Event :=
  { action := PROC_EVENT_EXIT, data := task, now := now }

/-- A FORK event for the task at address `task` at clock value `now`. -/
def fork_event (task now : Nat) : Event :=
  { action := PROC_EVENT_FORK, data := task, now := now }

end process_telemetry_v2

/-! ## `process_telemetry.c` -/

namespace process_telemetry

/-- The module's globals. -/
structure State where
  fork_count : Nat
  exit_count : Nat
  last_pid : Int
  last_comm : List Nat
deriving DecidableEq, Repr

/-- State at module load: the initialisers of the globals (`last_comm` is
`"none"` followed by NUL bytes). -/
def init : State :=
  { fork_count := 0
    exit_count := 0
    last_pid := -1
    last_comm := [110, 111, 110, 101] ++ List.replicate (TASK_COMM_LEN - 4) 0 }

/-- The C `process_event(nb, action, data)` of `process_telemetry.c` over a
task memory it only reads. -/
def process_event (tasks : Nat → task_struct) (s : State) (e : Event) : State × Nat :=
  if e.action = PROC_EVENT_FORK then
    ({ s with
        fork_count := ulong_inc s.fork_count
        last_pid := (tasks e.data).pid
        last_comm := strncpy (tasks e.data).comm TASK_COMM_LEN },
      NOTIFY_OK)
  else if e.action = PROC_EVENT_EXIT then
    ({ s with exit_count := ulong_inc s.exit_count }, NOTIFY_OK)
  else
    (s, NOTIFY_OK)

/-- State after delivering the events one after another. -/
def run (tasks : Nat → task_struct) (s : State) (es : List Event) : State :=
  es.foldl (fun s e => (process_event tasks s e).1) s

end process_telemetry

/-! ## `k_proc_observer.c` -/

namespace k_proc_observer

/-- The module's globals (`proc_entry` is set at load and not touched by the
callback). -/
structure State where
  process_count : Nat
  last_pid : Int
  last_comm : List Nat
deriving DecidableEq, Repr

/-- State at module load: the initialisers of the globals. -/
def init : State :=
  { process_count := 0
    last_pid := -1
    last_comm := List.replicate TASK_COMM_LEN 0 }

/-- The C `process_event(nb, action, data)` of `k_proc_observer.c` over a task
memory it only reads. -/
def process_event (tasks : Nat → task_struct) (s : State) (e : Event) : State × Nat :=
  if e.action = PROC_EVENT_FORK then
    ({ s with
        process_count := ulong_inc s.process_count
        last_pid := (tasks e.data).pid
        last_comm := strncpy (tasks e.data).comm TASK_COMM_LEN },
      NOTIFY_OK)
  else
    (s, NOTIFY_OK)

/-- State after delivering the events one after another. -/
def run (tasks : Nat → task_struct) (s : State) (es : List Event) : State :=
  es.foldl (fun s e => (process_event tasks s e).1) s

end k_proc_observer

/-- The pid of the task of the most recent FORK event of a sequence, `-1` when
the sequence has no FORK event. -/
def last_fork_pid (tasks : Nat → task_struct) (es : List Event) : Int :=
  match (es.filter (fun e => e.action = PROC_EVENT_FORK)).getLast? with
  | some e => (tasks e.data).pid
  | none => -1

/-- Number of events of a sequence with the given action. -/
def count_action (action : Nat) (es : List Event) : Nat :=
  es.countP (fun e => e.action = action)

/-- A task memory for worked examples: the task at address `p` has pid `p`,
uid 1000, command name `"sh"` and start time 7. -/
def sample_tasks : Nat → task_struct := fun p =>
  { pid := p, uid := 1000, comm := [115, 104] ++ List.replicate 14 0, start_time := 7 }

/-! ## Two CPUs: `process_event` on an EXIT event against `telemetry_show`

The two code paths are split into their C statements and interleaved by a
schedule.  Each statement is taken as one indivisible step.  `process_event`
starts with `spin_lock_irqsave` and ends with `spin_unlock_irqrestore`;
`telemetry_show` has no lock statement. -/

namespace process_telemetry_v2

/-- Memory shared by the CPUs: the module's globals with the task memory, and
whether `telemetry_lock` is held. -/
structure Shared where
  mem : State
  locked : Bool

/-- A `process_event` call in progress: the next statement and the locals
`lifetime` (of `process_event`) and `min` (of `update_top_processes`). -/
structure Writer where
  pc : Nat
  lifetime : Nat
  min : Nat
deriving DecidableEq, Repr

/-- A `telemetry_show` call in progress: the next statement and the output
written so far. -/
structure Reader where
  pc : Nat
  out : show_output
deriving DecidableEq, Repr

/-- A call of `process_event` about to start. -/
def Writer.start : Writer := { pc := 0, lifetime := 0, min := 0 }

/-- A call of `telemetry_show` about to start. -/
def Reader.start : Reader := { pc := 0, out := { forks := 0, exits := 0, lines := [] } }

/-- One statement of `process_event` on an EXIT event `e`; `none` when the
statement cannot run (the lock is held by someone else, or the call is over).
Statements, by `pc`: 0 `spin_lock_irqsave`; 1 `lifetime = ktime_get_ns() -
task->start_time`; 2 `exit_count++`; 3 the scan for `min`; 4 the test
`lifetime > top[min].lifetime_ns`; 5 to 8 the four stores to `top[min]`;
9 `spin_unlock_irqrestore`. -/
def writer_step (e : Event) (sh : Shared) (w : Writer) : Option (Shared × Writer) :=
  match w.pc with
  | 0 => if sh.locked then none else some ({ sh with locked := true }, { w with pc := 1 })
  | 1 => some (sh, { w with pc := 2, lifetime := exit_lifetime sh.mem e })
  | 2 =>
    some ({ sh with mem := { sh.mem with exit_count := ulong_inc sh.mem.exit_count } },
      { w with pc := 3 })
  | 3 => some (sh, { w with pc := 4, min := find_min sh.mem.top })
  | 4 =>
    some (sh,
      { w with pc := if w.lifetime > (sh.mem.top.get w.min).lifetime_ns then 5 else 9 })
  | 5 =>
    some ({ sh with mem := { sh.mem with
        top := sh.mem.top.set w.min
          { sh.mem.top.get w.min with pid := (sh.mem.tasks e.data).pid } } },
      { w with pc := 6 })
  | 6 =>
    some ({ sh with mem := { sh.mem with
        top := sh.mem.top.set w.min
          { sh.mem.top.get w.min with uid := (sh.mem.tasks e.data).uid } } },
      { w with pc := 7 })
  | 7 =>
    some ({ sh with mem := { sh.mem with
        top := sh.mem.top.set w.min
          { sh.mem.top.get w.min with
            comm := strncpy (sh.mem.tasks e.data).comm TASK_COMM_LEN } } },
      { w with pc := 8 })
  | 8 =>
    some ({ sh with mem := { sh.mem with
        top := sh.mem.top.set w.min { sh.mem.top.get w.min with lifetime_ns := w.lifetime } } },
      { w with pc := 9 })
  | 9 => some ({ sh with locked := false }, { w with pc := 10 })
  | _ => none

/-- One statement of `telemetry_show`; `none` when the call is over.
Statements, by `pc`: 0 the `seq_printf` of the header, which reads
`fork_count` and `exit_count`; `i + 1` the loop body for slot `i`.  No
statement looks at the lock. -/
def reader_step (sh : Shared) (r : Reader) : Option Reader :=
  if r.pc = 0 then
    some { pc := 1, out := { r.out with forks := sh.mem.fork_count, exits := sh.mem.exit_count } }
  else if r.pc ≤ MAX_TOP then
    if (sh.mem.top.get (r.pc - 1)).lifetime_ns = 0 then
      some { r with pc := r.pc + 1 }
    else
      some { pc := r.pc + 1
             out := { r.out with lines := r.out.lines ++ [⟨r.pc, sh.mem.top.get (r.pc - 1)⟩] } }
  else
    none

/-- The CPUs that take a step. -/
inductive Cpu where
  | writer
  | reader
deriving DecidableEq, Repr

/-- Execution of a schedule: at each entry the named CPU runs its next
statement; an entry whose statement cannot run is skipped. -/
def interleave (e : Event) : List Cpu → Shared × Writer × Reader → Shared × Writer × Reader
  | [], c => c
  | Cpu.writer :: sched, (sh, w, r) =>
    match writer_step e sh w with
    | some (sh', w') => interleave e sched (sh', w', r)
    | none => interleave e sched (sh, w, r)
  | Cpu.reader :: sched, (sh, w, r) =>
    match reader_step sh r with
    | some r' => interleave e sched (sh, w, r')
    | none => interleave e sched (sh, w, r)

/-- The table after the five EXIT events of lifetimes 10, 20, 30, 40, 50. -/
def five_exits : List Event :=
  [exit_event 1 17, exit_event 2 27, exit_event 3 37, exit_event 4 47, exit_event 5 57]

/-- A schedule in which `telemetry_show` prints its header and reads slot 0
after `process_event` has stored the pid but not yet the lifetime. -/
def torn_schedule : List Cpu :=
  List.replicate 6 Cpu.writer ++ List.replicate 2 Cpu.reader ++ List.replicate 4 Cpu.writer ++
    List.replicate 5 Cpu.reader

end process_telemetry_v2

/-! ## Lemmas on the scan, the table update and runs -/

namespace process_telemetry_v2

theorem top_array.get_set_same (top : top_array) (i : Nat) (r : proc_record) (h : i < MAX_TOP) :
    (top.set i r).get i = r := by
  have hl : i < top.val.length := by rw [top.property]; exact h
  simp [top_array.get, top_array.set, List.getD_eq_getElem?_getD, List.getElem?_set, hl, h]

theorem top_array.get_set_other (top : top_array) (i j : Nat) (r : proc_record) (h : j ≠ i) :
    (top.set i r).get j = top.get j := by
  simp [top_array.get, top_array.set, List.getD_eq_getElem?_getD, List.getElem?_set, Ne.symm h]

/-- Invariant of the scan loop: after the indices below `a + n` have been
visited, `min` is the lowest index holding the least lifetime among them. -/
theorem scan_spec (top : top_array) :
    ∀ (n a m : Nat), m < a →
      (∀ j, j < a → (top.get m).lifetime_ns ≤ (top.get j).lifetime_ns) →
      (∀ j, j < m → (top.get m).lifetime_ns < (top.get j).lifetime_ns) →
      (List.range' a n).foldl
          (fun min i => if (top.get i).lifetime_ns < (top.get min).lifetime_ns then i else min) m
          < a + n ∧
      (∀ j, j < a + n →
        (top.get ((List.range' a n).foldl
          (fun min i => if (top.get i).lifetime_ns < (top.get min).lifetime_ns then i else min)
          m)).lifetime_ns ≤ (top.get j).lifetime_ns) ∧
      (∀ j, j < (List.range' a n).foldl
          (fun min i => if (top.get i).lifetime_ns < (top.get min).lifetime_ns then i else min) m →
        (top.get ((List.range' a n).foldl
          (fun min i => if (top.get i).lifetime_ns < (top.get min).lifetime_ns then i else min)
          m)).lifetime_ns < (top.get j).lifetime_ns) := by
  intro n
  induction n with
  | zero =>
    intro a m hm hle hlt
    simpa using ⟨hm, hle, hlt⟩
  | succ n ih =>
    intro a m hm hle hlt
    rw [List.range'_succ, List.foldl_cons]
    have key := ih (a + 1)
      (if (top.get a).lifetime_ns < (top.get m).lifetime_ns then a else m)
    have e : a + 1 + n = a + (n + 1) := by omega
    rw [e] at key
    apply key
    · split_ifs <;> omega
    · intro j hj
      split_ifs with h
      · rcases Nat.lt_succ_iff_lt_or_eq.mp hj with h1 | h1
        · exact le_of_lt (lt_of_lt_of_le h (hle j h1))
        · rw [h1]
      · rcases Nat.lt_succ_iff_lt_or_eq.mp hj with h1 | h1
        · exact hle j h1
        · rw [h1]; exact not_lt.mp h
    · intro j hj
      split_ifs with h
      · rw [if_pos h] at hj
        exact lt_of_lt_of_le h (hle j hj)
      · rw [if_neg h] at hj
        exact hlt j hj

theorem find_min_lt (top : top_array) : find_min top < MAX_TOP :=
  (scan_spec top 4 1 0 (by omega) (by intro j hj; interval_cases j; exact le_refl _)
    (by intro j hj; omega)).1

theorem find_min_le (top : top_array) (j : Nat) (hj : j < MAX_TOP) :
    (top.get (find_min top)).lifetime_ns ≤ (top.get j).lifetime_ns :=
  (scan_spec top 4 1 0 (by omega) (by intro j hj; interval_cases j; exact le_refl _)
    (by intro j hj; omega)).2.1 j hj

theorem find_min_first (top : top_array) (j : Nat) (hj : j < find_min top) :
    (top.get (find_min top)).lifetime_ns < (top.get j).lifetime_ns :=
  (scan_spec top 4 1 0 (by omega) (by intro j hj; interval_cases j; exact le_refl _)
    (by intro j hj; omega)).2.2 j hj

theorem update_top_processes_eq (top : top_array) (task : task_struct) (lifetime : Nat) :
    update_top_processes top task lifetime =
      match admit_slot top lifetime with
      | some m => top.set m (record_of task lifetime)
      | none => top := by
  unfold update_top_processes admit_slot
  by_cases h : lifetime > (top.get (find_min top)).lifetime_ns <;> simp [h]

theorem set_perm_cons_eraseIdx {α : Type} (r : α) :
    ∀ (l : List α) (i : Nat), i < l.length → List.Perm (l.set i r) (r :: l.eraseIdx i)
  | [], _, h => by simp at h
  | a :: l, 0, _ => by simp
  | a :: l, i + 1, h => by
    have h1 : i < l.length := by simpa using h
    simp only [List.set_cons_succ, List.eraseIdx_cons_succ]
    exact ((set_perm_cons_eraseIdx r l i h1).cons a).trans (List.Perm.swap r a _)

theorem perm_getD_cons_eraseIdx {α : Type} (d : α) :
    ∀ (l : List α) (i : Nat), i < l.length → List.Perm l (l.getD i d :: l.eraseIdx i)
  | [], _, h => by simp at h
  | a :: l, 0, _ => by simp
  | a :: l, i + 1, h => by
    have h1 : i < l.length := by simpa using h
    simp only [List.getD_cons_succ, List.eraseIdx_cons_succ]
    exact ((perm_getD_cons_eraseIdx d l i h1).cons a).trans (List.Perm.swap _ a _)

theorem mem_lifetimes_iff (top : top_array) (a : Nat) :
    a ∈ lifetimes top ↔ ∃ j, j < MAX_TOP ∧ (top.get j).lifetime_ns = a := by
  unfold lifetimes top_array.get
  constructor
  · intro h
    obtain ⟨r, hr, rfl⟩ := List.mem_map.mp h
    obtain ⟨j, hj, rfl⟩ := List.mem_iff_getElem.mp hr
    refine ⟨j, by rw [← top.property]; exact hj, ?_⟩
    rw [List.getD_eq_getElem?_getD, List.getElem?_eq_getElem hj, Option.getD_some]
  · rintro ⟨j, hj, rfl⟩
    have hl : j < top.val.length := by rw [top.property]; exact hj
    refine List.mem_map.mpr ⟨top.val[j], List.getElem_mem hl, ?_⟩
    rw [List.getD_eq_getElem?_getD, List.getElem?_eq_getElem hl, Option.getD_some]

/-- Writing slot `m` replaces one occurrence of its lifetime in the multiset
of lifetimes. -/
theorem lifetimes_set (top : top_array) (m : Nat) (hm : m < MAX_TOP) (r : proc_record) :
    ∃ R : List Nat, List.Perm (lifetimes top) ((top.get m).lifetime_ns :: R) ∧
      List.Perm (lifetimes (top.set m r)) (r.lifetime_ns :: R) := by
  have hl : m < top.val.length := by rw [top.property]; exact hm
  refine ⟨(top.val.eraseIdx m).map (fun r => r.lifetime_ns), ?_, ?_⟩
  · have := (perm_getD_cons_eraseIdx zero_record top.val m hl).map (fun r => r.lifetime_ns)
    simpa [lifetimes, top_array.get] using this
  · have := (set_perm_cons_eraseIdx r top.val m hl).map (fun r => r.lifetime_ns)
    simpa [lifetimes, top_array.set] using this

theorem retains_init (tasks : Nat → task_struct) : Retains (lifetimes (init tasks).top) [] := by
  refine ⟨[], ?_, by simp⟩
  simp [lifetimes, init, zero_record]

theorem retains_offer (top : top_array) (task : task_struct) (x : Nat) (M : List Nat)
    (h : Retains (lifetimes top) M) :
    Retains (lifetimes (update_top_processes top task x)) (M ++ [x]) := by
  obtain ⟨D, hperm, hdom⟩ := h
  have hmin : ∀ a ∈ lifetimes top, (top.get (find_min top)).lifetime_ns ≤ a := by
    intro a ha
    obtain ⟨j, hj, rfl⟩ := (mem_lifetimes_iff top a).mp ha
    exact find_min_le top j hj
  have hmem : (top.get (find_min top)).lifetime_ns ∈ lifetimes top :=
    (mem_lifetimes_iff top _).mpr ⟨find_min top, find_min_lt top, rfl⟩
  have hM : List.Perm (M ++ [x] ++ List.replicate MAX_TOP 0)
      (x :: (lifetimes top ++ D)) := by
    have h1 : List.Perm (M ++ [x] ++ List.replicate MAX_TOP 0)
        (x :: (M ++ List.replicate MAX_TOP 0)) := by
      rw [List.append_assoc]
      exact List.perm_middle
    exact h1.trans (hperm.cons x)
  unfold update_top_processes
  by_cases hx : x > (top.get (find_min top)).lifetime_ns
  · simp only [hx, if_true]
    obtain ⟨R, hR, hR'⟩ := lifetimes_set top (find_min top) (find_min_lt top) (record_of task x)
    refine ⟨(top.get (find_min top)).lifetime_ns :: D, ?_, ?_⟩
    · refine hM.trans ?_
      have h2 : List.Perm (x :: (lifetimes top ++ D))
          (x :: ((top.get (find_min top)).lifetime_ns :: R ++ D)) :=
        (hR.append_right D).cons x
      refine h2.trans ?_
      have h3 : List.Perm (x :: ((top.get (find_min top)).lifetime_ns :: R ++ D))
          ((x :: R) ++ ((top.get (find_min top)).lifetime_ns :: D)) := by
        simp only [List.cons_append]
        exact (List.perm_middle.symm).cons x
      exact h3.trans (hR'.symm.append_right _)
    · intro a ha b hb
      have ha' : a = x ∨ a ∈ lifetimes top := by
        rcases List.mem_cons.mp (hR'.subset ha) with h1 | h1
        · exact Or.inl h1
        · exact Or.inr (hR.symm.subset (List.mem_cons_of_mem _ h1))
      have hge : (top.get (find_min top)).lifetime_ns ≤ a := by
        rcases ha' with h1 | h1
        · rw [h1]; exact le_of_lt hx
        · exact hmin a h1
      rcases List.mem_cons.mp hb with h1 | h1
      · rw [h1]; exact hge
      · exact le_trans (hdom _ hmem b h1) hge
  · simp only [hx, if_false]
    refine ⟨x :: D, ?_, ?_⟩
    · exact hM.trans List.perm_middle.symm
    · intro a ha b hb
      rcases List.mem_cons.mp hb with h1 | h1
      · rw [h1]; exact le_trans (not_lt.mp hx) (hmin a ha)
      · exact hdom a ha b h1

theorem exit_ne_fork : PROC_EVENT_EXIT ≠ PROC_EVENT_FORK := by decide

theorem process_event_fork (s : State) (e : Event) (h : e.action = PROC_EVENT_FORK) :
    process_event s e =
      ({ s with
          fork_count := ulong_inc s.fork_count
          tasks := fun p =>
            if p = e.data then { s.tasks p with start_time := e.now } else s.tasks p },
        NOTIFY_OK) := by
  unfold process_event
  rw [if_pos h]

theorem process_event_exit (s : State) (e : Event) (h : e.action = PROC_EVENT_EXIT) :
    process_event s e =
      ({ s with
          exit_count := ulong_inc s.exit_count
          top := update_top_processes s.top (s.tasks e.data) (exit_lifetime s e) },
        NOTIFY_OK) := by
  unfold process_event
  rw [if_neg (by rw [h]; exact exit_ne_fork), if_pos h]

theorem process_event_other (s : State) (e : Event) (hf : e.action ≠ PROC_EVENT_FORK)
    (hx : e.action ≠ PROC_EVENT_EXIT) : process_event s e = (s, NOTIFY_OK) := by
  unfold process_event
  rw [if_neg hf, if_neg hx]

theorem process_event_top_of_not_exit (s : State) (e : Event) (hx : e.action ≠ PROC_EVENT_EXIT) :
    (process_event s e).1.top = s.top := by
  by_cases hf : e.action = PROC_EVENT_FORK
  · rw [process_event_fork s e hf]
  · rw [process_event_other s e hf hx]

theorem run_cons (s : State) (e : Event) (es : List Event) :
    run s (e :: es) = run (process_event s e).1 es := rfl

theorem retains_run :
    ∀ (es : List Event) (s : State) (M : List Nat), Retains (lifetimes s.top) M →
      Retains (lifetimes (run s es).top) (M ++ exit_lifetimes s es)
  | [], s, M, h => by simpa [run, exit_lifetimes] using h
  | e :: es, s, M, h => by
    rw [run_cons]
    by_cases hx : e.action = PROC_EVENT_EXIT
    · have htop : (process_event s e).1.top =
          update_top_processes s.top (s.tasks e.data) (exit_lifetime s e) := by
        rw [process_event_exit s e hx]
      have hstep := retains_offer s.top (s.tasks e.data) (exit_lifetime s e) M h
      rw [← htop] at hstep
      have := retains_run es (process_event s e).1 _ hstep
      simpa [exit_lifetimes, hx, List.append_assoc] using this
    · have htop := process_event_top_of_not_exit s e hx
      have hstep : Retains (lifetimes (process_event s e).1.top) M := by rw [htop]; exact h
      have := retains_run es (process_event s e).1 _ hstep
      simpa [exit_lifetimes, hx] using this

/-- A list that splits into a part `T` of at most `k` values dominating the
rest `D` (with `T` of full size `k` when `D` is not empty) has `T` as its `k`
largest values. -/
theorem largest_of_split (k : Nat) (A T D : List Nat) (h : List.Perm A (T ++ D))
    (hdom : ∀ a ∈ T, ∀ b ∈ D, b ≤ a) (hlen : T.length ≤ k) (hfull : D ≠ [] → T.length = k) :
    List.Perm (largest k A) T := by
  have hS : List.Sorted (fun a b : Nat => a ≥ b)
      (T.insertionSort (fun a b => a ≥ b) ++ D.insertionSort (fun a b => a ≥ b)) := by
    refine List.pairwise_append.mpr ⟨List.sorted_insertionSort _ T, List.sorted_insertionSort _ D, ?_⟩
    intro a ha b hb
    exact hdom a ((List.mem_insertionSort _).mp ha) b ((List.mem_insertionSort _).mp hb)
  have hp : List.Perm (A.insertionSort (fun a b => a ≥ b))
      (T.insertionSort (fun a b => a ≥ b) ++ D.insertionSort (fun a b => a ≥ b)) :=
    (List.perm_insertionSort _ A).trans
      (h.trans ((List.perm_insertionSort _ T).symm.append (List.perm_insertionSort _ D).symm))
  have heq := List.eq_of_perm_of_sorted hp (List.sorted_insertionSort _ A) hS
  unfold largest
  rw [heq]
  by_cases hD : D = []
  · subst hD
    rw [show ([] : List Nat).insertionSort (fun a b => a ≥ b) = [] from rfl, List.append_nil,
      List.take_of_length_le (by rw [List.length_insertionSort]; exact hlen)]
    exact List.perm_insertionSort _ T
  · rw [List.take_left' (by rw [List.length_insertionSort]; exact hfull hD)]
    exact List.perm_insertionSort _ T

theorem lifetimes_length (top : top_array) : (lifetimes top).length = MAX_TOP := by
  simp [lifetimes, top.property]

theorem filled_lifetimes (top : top_array) :
    (filled top).map (fun r => r.lifetime_ns) = (lifetimes top).filter (fun a => a != 0) := by
  unfold filled lifetimes
  rw [List.filter_map]
  rfl

/-- From the retention invariant: the non-zero lifetimes in the table are the
`MAX_TOP` largest non-zero offered lifetimes. -/
theorem retains_largest (T M : List Nat) (hT : T.length = MAX_TOP) (h : Retains T M) :
    List.Perm (largest MAX_TOP (M.filter (fun a => a != 0))) (T.filter (fun a => a != 0)) := by
  obtain ⟨D, hperm, hdom⟩ := h
  apply largest_of_split MAX_TOP _ _ (D.filter (fun a => a != 0))
  · have := hperm.filter (fun a => a != 0)
    rw [List.filter_append, List.filter_append] at this
    have hz : (List.replicate MAX_TOP 0).filter (fun a => a != 0) = [] := by decide
    rw [hz, List.append_nil] at this
    exact this
  · intro a ha b hb
    exact hdom a (List.mem_filter.mp ha).1 b (List.mem_filter.mp hb).1
  · rw [← hT]
    exact List.length_filter_le _ _
  · intro hD
    obtain ⟨b, hb⟩ := List.exists_mem_of_ne_nil _ hD
    have hb' := List.mem_filter.mp hb
    have hbpos : 0 < b := by
      have : b ≠ 0 := by simpa using hb'.2
      omega
    have hall : T.filter (fun a => a != 0) = T := by
      rw [List.filter_eq_self]
      intro a ha
      have := hdom a ha b hb'.1
      have hne : a ≠ 0 := by omega
      simpa using hne
    rw [hall, hT]

theorem run_append (s : State) (es fs : List Event) : run s (es ++ fs) = run (run s es) fs := by
  unfold run
  rw [List.foldl_append]

theorem run_concat (s : State) (es : List Event) (e : Event) :
    run s (es ++ [e]) = (process_event (run s es) e).1 := by
  rw [run_append]
  rfl

theorem ulong_inc_mod (n : Nat) : ulong_inc (n % ULONG_MOD) = (n + 1) % ULONG_MOD := by
  unfold ulong_inc
  exact Nat.mod_add_mod n ULONG_MOD 1

/-- Counters after a run from the load state: the numbers of FORK and EXIT
events, modulo the width of `unsigned long`. -/
theorem run_counts (tasks : Nat → task_struct) (es : List Event) :
    (run (init tasks) es).fork_count = count_action PROC_EVENT_FORK es % ULONG_MOD ∧
    (run (init tasks) es).exit_count = count_action PROC_EVENT_EXIT es % ULONG_MOD := by
  induction es using List.reverseRecOn with
  | nil => exact ⟨rfl, rfl⟩
  | append_singleton es e ih =>
    rw [run_concat]
    unfold count_action at *
    rw [List.countP_append, List.countP_append]
    by_cases hf : e.action = PROC_EVENT_FORK
    · have hx : e.action ≠ PROC_EVENT_EXIT := by rw [hf]; exact exit_ne_fork.symm
      rw [process_event_fork _ e hf]
      simp only [List.countP_cons, List.countP_nil, hf, hx, decide_True, decide_False, if_true,
        Bool.false_eq_true, if_false, Nat.zero_add, Nat.add_zero]
      exact ⟨by rw [ih.1, ulong_inc_mod], ih.2⟩
    · by_cases hx : e.action = PROC_EVENT_EXIT
      · rw [process_event_exit _ e hx]
        simp only [List.countP_cons, List.countP_nil, hf, hx, decide_True, decide_False, if_true,
          Bool.false_eq_true, if_false, Nat.zero_add, Nat.add_zero]
        exact ⟨ih.1, by rw [ih.2, ulong_inc_mod]⟩
      · rw [process_event_other _ e hf hx]
        simp only [List.countP_cons, List.countP_nil, hf, hx, decide_False,
          Bool.false_eq_true, if_false, Nat.zero_add, Nat.add_zero]
        exact ih

/-- A run without FORK events for a task leaves the task's memory as it was. -/
theorem run_tasks_of_no_fork (t : Nat) :
    ∀ (es : List Event) (s : State),
      (∀ e ∈ es, ¬ (e.action = PROC_EVENT_FORK ∧ e.data = t)) → (run s es).tasks t = s.tasks t
  | [], _, _ => rfl
  | e :: es, s, h => by
    rw [run_cons, run_tasks_of_no_fork t es _ (fun e' he' => h e' (List.mem_cons_of_mem _ he'))]
    by_cases hf : e.action = PROC_EVENT_FORK
    · have hd : t ≠ e.data := fun hd => h e (List.mem_cons_self _ _) ⟨hf, hd.symm⟩
      rw [process_event_fork s e hf]
      simp [hd]
    · by_cases hx : e.action = PROC_EVENT_EXIT
      · rw [process_event_exit s e hx]
      · rw [process_event_other s e hf hx]

/-- A run changes nothing of a task but its `start_time`. -/
theorem run_tasks_fields (t : Nat) :
    ∀ (es : List Event) (s : State),
      ((run s es).tasks t).pid = (s.tasks t).pid ∧ ((run s es).tasks t).uid = (s.tasks t).uid ∧
        ((run s es).tasks t).comm = (s.tasks t).comm
  | [], _ => ⟨rfl, rfl, rfl⟩
  | e :: es, s => by
    rw [run_cons]
    have ih := run_tasks_fields t es (process_event s e).1
    rw [ih.1, ih.2.1, ih.2.2]
    by_cases hf : e.action = PROC_EVENT_FORK
    · rw [process_event_fork s e hf]
      by_cases hd : t = e.data <;> simp [hd]
    · by_cases hx : e.action = PROC_EVENT_EXIT
      · rw [process_event_exit s e hx]
        exact ⟨rfl, rfl, rfl⟩
      · rw [process_event_other s e hf hx]
        exact ⟨rfl, rfl, rfl⟩

theorem u64_sub_exact (a b : Nat) (hab : b ≤ a) (ha : a < U64_MOD) : u64_sub a b = a - b := by
  unfold u64_sub
  have hb : b < U64_MOD := lt_of_le_of_lt hab ha
  rw [Nat.mod_eq_of_lt ha, Nat.mod_eq_of_lt hb]
  have e : a + (U64_MOD - b) = (a - b) + U64_MOD := by omega
  rw [e, Nat.add_mod_right, Nat.mod_eq_of_lt (by omega)]

theorem admit_slot_some (top : top_array) (x : Nat)
    (h : x > (top.get (find_min top)).lifetime_ns) : admit_slot top x = some (find_min top) := by
  unfold admit_slot
  rw [if_pos h]

theorem admit_slot_none (top : top_array) (x : Nat)
    (h : ¬ x > (top.get (find_min top)).lifetime_ns) : admit_slot top x = none := by
  unfold admit_slot
  rw [if_neg h]

theorem update_admitted (top : top_array) (task : task_struct) (x : Nat)
    (h : x > (top.get (find_min top)).lifetime_ns) :
    update_top_processes top task x = top.set (find_min top) (record_of task x) := by
  unfold update_top_processes
  simp only [h, if_true]

theorem update_rejected (top : top_array) (task : task_struct) (x : Nat)
    (h : ¬ x > (top.get (find_min top)).lifetime_ns) :
    update_top_processes top task x = top := by
  unfold update_top_processes
  simp only [h, if_false]

/-- One offer keeps the link between zero lifetimes and slots not written. -/
theorem written_offer (top : top_array) (task : task_struct) (x : Nat) (W : List Nat)
    (h : ∀ i, i < MAX_TOP → ((top.get i).lifetime_ns = 0 ↔ i ∉ W)) :
    ∀ i, i < MAX_TOP →
      (((update_top_processes top task x).get i).lifetime_ns = 0 ↔
        i ∉ W ++ (admit_slot top x).toList) := by
  intro i hi
  by_cases hx : x > (top.get (find_min top)).lifetime_ns
  · rw [update_admitted top task x hx, admit_slot_some top x hx]
    by_cases him : i = find_min top
    · subst him
      rw [top_array.get_set_same top _ _ hi]
      have : x ≠ 0 := by omega
      simp [record_of, this]
    · rw [top_array.get_set_other top _ _ _ him, h i hi]
      simp [him]
  · rw [update_rejected top task x hx, admit_slot_none top x hx, h i hi]
    simp

theorem written_run :
    ∀ (es : List Event) (s : State) (W : List Nat),
      (∀ i, i < MAX_TOP → ((s.top.get i).lifetime_ns = 0 ↔ i ∉ W)) →
      ∀ i, i < MAX_TOP →
        (((run s es).top.get i).lifetime_ns = 0 ↔ i ∉ W ++ written_slots s es)
  | [], s, W, h => by simpa [run, written_slots] using h
  | e :: es, s, W, h => by
    rw [run_cons]
    by_cases hx : e.action = PROC_EVENT_EXIT
    · have htop : (process_event s e).1.top =
          update_top_processes s.top (s.tasks e.data) (exit_lifetime s e) := by
        rw [process_event_exit s e hx]
      have hstep := written_offer s.top (s.tasks e.data) (exit_lifetime s e) W h
      rw [← htop] at hstep
      have := written_run es (process_event s e).1 _ hstep
      simpa [written_slots, hx, List.append_assoc] using this
    · have htop := process_event_top_of_not_exit s e hx
      have hstep : ∀ i, i < MAX_TOP →
          (((process_event s e).1.top.get i).lifetime_ns = 0 ↔ i ∉ W) := by
        rw [htop]; exact h
      have := written_run es (process_event s e).1 _ hstep
      simpa [written_slots, hx] using this

/-- In a state reached from the load state, a slot holds lifetime zero exactly
when no admitted record was ever written to it. -/
theorem zero_iff_not_written (tasks : Nat → task_struct) (es : List Event) (i : Nat)
    (hi : i < MAX_TOP) :
    ((run (init tasks) es).top.get i).lifetime_ns = 0 ↔ i ∉ written_slots (init tasks) es := by
  have h0 : ∀ i, i < MAX_TOP → (((init tasks).top.get i).lifetime_ns = 0 ↔ i ∉ ([] : List Nat)) := by
    intro i hi
    have : i < 5 := hi
    interval_cases i <;> simp [init, top_array.get, zero_record, MAX_TOP]
  simpa using written_run es (init tasks) [] h0 i hi

theorem filled_length_set (top : top_array) (m : Nat) (hm : m < MAX_TOP) (r : proc_record)
    (h0 : (top.get m).lifetime_ns = 0) (hr : r.lifetime_ns ≠ 0) :
    (filled (top.set m r)).length = (filled top).length + 1 := by
  have hl : m < top.val.length := by rw [top.property]; exact hm
  have h1 := ((set_perm_cons_eraseIdx r top.val m hl).filter
    (fun r => r.lifetime_ns != 0)).length_eq
  have h2 := ((perm_getD_cons_eraseIdx zero_record top.val m hl).filter
    (fun r => r.lifetime_ns != 0)).length_eq
  have h0' : (top.val.getD m zero_record).lifetime_ns = 0 := h0
  unfold filled top_array.set
  simp only [List.filter_cons, h0', hr, bne_self_eq_false, Bool.false_eq_true, if_false,
    bne_iff_ne, ne_eq, not_false_eq_true, decide_True, if_true, List.length_cons] at h1 h2 ⊢
  omega

theorem exists_free_of_filled_lt (top : top_array) (h : (filled top).length < MAX_TOP) :
    ∃ j, j < MAX_TOP ∧ (top.get j).lifetime_ns = 0 := by
  have h' : (top.val.filter (fun r => r.lifetime_ns != 0)).length < top.val.length := by
    rw [top.property]; exact h
  obtain ⟨r, hr, hp⟩ := List.length_filter_lt_length_iff_exists.mp h'
  have hz : r.lifetime_ns = 0 := by simpa using hp
  exact (mem_lifetimes_iff top 0).mp (List.mem_map.mpr ⟨r, hr, hz⟩)

theorem show_lines_eq (top : top_array) :
    show_lines top =
      ((List.range MAX_TOP).filter (fun i => (top.get i).lifetime_ns != 0)).map
        (fun i => ⟨i + 1, top.get i⟩) := by
  unfold show_lines
  generalize List.range MAX_TOP = l
  induction l with
  | nil => rfl
  | cons a l ih =>
    by_cases h : (top.get a).lifetime_ns = 0
    · simp [List.filterMap_cons, List.filter_cons, h, ih]
    · simp [List.filterMap_cons, List.filter_cons, h, ih]

end process_telemetry_v2

/-! ## Lemmas on the two simpler modules -/

theorem pt_run_concat (tasks : Nat → task_struct) (s : process_telemetry.State)
    (es : List Event) (e : Event) :
    process_telemetry.run tasks s (es ++ [e]) =
      (process_telemetry.process_event tasks (process_telemetry.run tasks s es) e).1 := by
  unfold process_telemetry.run
  rw [List.foldl_append]
  rfl

theorem kpo_run_concat (tasks : Nat → task_struct) (s : k_proc_observer.State)
    (es : List Event) (e : Event) :
    k_proc_observer.run tasks s (es ++ [e]) =
      (k_proc_observer.process_event tasks (k_proc_observer.run tasks s es) e).1 := by
  unfold k_proc_observer.run
  rw [List.foldl_append]
  rfl

theorem last_fork_pid_concat_fork (tasks : Nat → task_struct) (es : List Event) (e : Event)
    (h : e.action = PROC_EVENT_FORK) : last_fork_pid tasks (es ++ [e]) = (tasks e.data).pid := by
  unfold last_fork_pid
  rw [List.filter_append]
  simp [List.filter_cons, h, List.getLast?_concat]

theorem last_fork_pid_concat_other (tasks : Nat → task_struct) (es : List Event) (e : Event)
    (h : e.action ≠ PROC_EVENT_FORK) : last_fork_pid tasks (es ++ [e]) = last_fork_pid tasks es := by
  unfold last_fork_pid
  rw [List.filter_append]
  simp [List.filter_cons, h]

/-- Counters and `last_pid` of `process_telemetry.c` after a run from load. -/
theorem pt_run_spec (tasks : Nat → task_struct) (es : List Event) :
    (process_telemetry.run tasks process_telemetry.init es).fork_count =
        count_action PROC_EVENT_FORK es % ULONG_MOD ∧
      (process_telemetry.run tasks process_telemetry.init es).exit_count =
        count_action PROC_EVENT_EXIT es % ULONG_MOD ∧
      (process_telemetry.run tasks process_telemetry.init es).last_pid =
        last_fork_pid tasks es := by
  induction es using List.reverseRecOn with
  | nil => exact ⟨rfl, rfl, rfl⟩
  | append_singleton es e ih =>
    rw [pt_run_concat]
    unfold count_action at *
    rw [List.countP_append, List.countP_append]
    unfold process_telemetry.process_event
    by_cases hf : e.action = PROC_EVENT_FORK
    · have hx : e.action ≠ PROC_EVENT_EXIT := by
        rw [hf]; exact process_telemetry_v2.exit_ne_fork.symm
      rw [if_pos hf, last_fork_pid_concat_fork tasks es e hf]
      simp only [List.countP_cons, List.countP_nil, hf, hx, decide_True, decide_False, if_true,
        Bool.false_eq_true, if_false, Nat.zero_add, Nat.add_zero]
      exact ⟨by rw [ih.1, process_telemetry_v2.ulong_inc_mod], ih.2.1, trivial⟩
    · rw [if_neg hf, last_fork_pid_concat_other tasks es e hf]
      by_cases hx : e.action = PROC_EVENT_EXIT
      · rw [if_pos hx]
        simp only [List.countP_cons, List.countP_nil, hf, hx, decide_True, decide_False, if_true,
          Bool.false_eq_true, if_false, Nat.zero_add, Nat.add_zero]
        exact ⟨ih.1, by rw [ih.2.1, process_telemetry_v2.ulong_inc_mod], ih.2.2⟩
      · rw [if_neg hx]
        simp only [List.countP_cons, List.countP_nil, hf, hx, decide_False,
          Bool.false_eq_true, if_false, Nat.zero_add, Nat.add_zero]
        exact ih

/-- Counter and `last_pid` of `k_proc_observer.c` after a run from load. -/
theorem kpo_run_spec (tasks : Nat → task_struct) (es : List Event) :
    (k_proc_observer.run tasks k_proc_observer.init es).process_count =
        count_action PROC_EVENT_FORK es % ULONG_MOD ∧
      (k_proc_observer.run tasks k_proc_observer.init es).last_pid =
        last_fork_pid tasks es := by
  induction es using List.reverseRecOn with
  | nil => exact ⟨rfl, rfl⟩
  | append_singleton es e ih =>
    rw [kpo_run_concat]
    unfold count_action at *
    rw [List.countP_append]
    unfold k_proc_observer.process_event
    by_cases hf : e.action = PROC_EVENT_FORK
    · rw [if_pos hf, last_fork_pid_concat_fork tasks es e hf]
      simp only [List.countP_cons, List.countP_nil, hf, decide_True, if_true, Nat.zero_add]
      exact ⟨by rw [ih.1, process_telemetry_v2.ulong_inc_mod], trivial⟩
    · rw [if_neg hf, last_fork_pid_concat_other tasks es e hf]
      simp only [List.countP_cons, List.countP_nil, hf, decide_False,
        Bool.false_eq_true, if_false, Nat.zero_add, Nat.add_zero]
      exact ih

theorem cstring_strncpy (src : List Nat) (n : Nat) :
    cstring (strncpy src n) = cstring (src.take n) := by
  unfold cstring strncpy
  simp only
  rw [List.takeWhile_append_of_pos (by
    intro a ha
    exact @List.mem_takeWhile_imp _ (fun c => c != 0) _ a ha)]
  cases h : n - (List.takeWhile (fun c => c != 0) (List.take n src)).length with
  | zero => simp
  | succ k => simp [List.replicate_succ, List.takeWhile_cons]

/-! ## The retention table (`update_top_processes`) -/

namespace process_telemetry_v2

/-- The eviction scenario: lifetimes 10, 20, 30, 40, 50, then 5, then 15
(tasks started at 7) leave the lifetimes 15, 20, 30, 40, 50 in the table. -/
theorem eviction_scenario :
    lifetimes (run (init sample_tasks)
      [exit_event 1 17, exit_event 2 27, exit_event 3 37, exit_event 4 47, exit_event 5 57,
        exit_event 6 12, exit_event 7 22]).top = [15, 20, 30, 40, 50] := by
  decide

/-- The tie scenario: with slots 0 and 1 both at the least lifetime 10, a
record of lifetime 15 replaces slot 0 alone. -/
theorem tie_scenario :
    lifetimes (run (init sample_tasks)
      [exit_event 1 17, exit_event 2 17, exit_event 3 27, exit_event 4 37, exit_event 5 47]).top =
        [10, 10, 20, 30, 40] ∧
      lifetimes (run (init sample_tasks)
        [exit_event 1 17, exit_event 2 17, exit_event 3 27, exit_event 4 37, exit_event 5 47,
          exit_event 6 22]).top = [15, 10, 20, 30, 40] := by
  decide

/-- C1 (as amended): after any sequence of events from the load state, the
lifetimes in the filled slots of `top` (those with `lifetime_ns != 0`) are, as
a multiset, the `MAX_TOP` largest of the non-zero lifetimes computed by the
EXIT events (all of them when there are fewer than `MAX_TOP`), and the number
of filled slots is the minimum of `MAX_TOP` and the number of non-zero
lifetimes. -/
theorem top_holds_largest_nonzero_lifetimes (tasks : Nat → task_struct) (es : List Event) :
    Multiset.ofList ((filled (run (init tasks) es).top).map (fun r => r.lifetime_ns)) =
        Multiset.ofList
          (largest MAX_TOP ((exit_lifetimes (init tasks) es).filter (fun a => a != 0))) ∧
      (filled (run (init tasks) es).top).length =
        min ((exit_lifetimes (init tasks) es).filter (fun a => a != 0)).length MAX_TOP := by
  have hret := retains_run es (init tasks) [] (retains_init tasks)
  rw [List.nil_append] at hret
  have hperm := retains_largest _ _ (lifetimes_length (run (init tasks) es).top) hret
  rw [← filled_lifetimes] at hperm
  refine ⟨Multiset.coe_eq_coe.mpr hperm.symm, ?_⟩
  have hlen := hperm.length_eq
  rw [List.length_map] at hlen
  rw [← hlen]
  unfold largest
  rw [List.length_take, List.length_insertionSort, Nat.min_comm]

/-- C1 (counterexample): one EXIT event whose lifetime is zero (clock value 7
for a task started at 7) leaves no filled slot, while the claim asks for one
retained record holding the lifetime 0. -/
theorem zero_lifetime_exit_is_not_retained :
    exit_lifetimes (init sample_tasks) [exit_event 1 7] = [0] ∧
      largest MAX_TOP (exit_lifetimes (init sample_tasks) [exit_event 1 7]) = [0] ∧
      (filled (run (init sample_tasks) [exit_event 1 7]).top).map (fun r => r.lifetime_ns) = [] ∧
      (filled (run (init sample_tasks) [exit_event 1 7]).top).length ≠
        min (exit_lifetimes (init sample_tasks) [exit_event 1 7]).length MAX_TOP := by
  decide

/-- C2: for every table and every offered task and lifetime, with `m` the
index the scan returns: `m` is the lowest index holding the least lifetime of
the table; the table changes if and only if the offered lifetime is strictly
greater than that least lifetime; when it is, the result is the table with
slot `m` alone overwritten, slot `m` then holds the task's pid, uid, command
name and the offered lifetime (strictly greater than the lifetime it
replaces), and every other slot is unchanged; when it is not, the table is
unchanged.  This holds in particular when all slots are filled. -/
theorem update_replaces_first_minimum (top : top_array) (task : task_struct) (lifetime : Nat) :
    find_min top < MAX_TOP ∧
      (∀ j, j < MAX_TOP → (top.get (find_min top)).lifetime_ns ≤ (top.get j).lifetime_ns) ∧
      (∀ j, j < find_min top → (top.get (find_min top)).lifetime_ns < (top.get j).lifetime_ns) ∧
      (update_top_processes top task lifetime ≠ top ↔
        lifetime > (top.get (find_min top)).lifetime_ns) ∧
      (lifetime > (top.get (find_min top)).lifetime_ns →
        update_top_processes top task lifetime = top.set (find_min top) (record_of task lifetime) ∧
        (update_top_processes top task lifetime).get (find_min top) ≠ top.get (find_min top) ∧
        (top.get (find_min top)).lifetime_ns <
          ((update_top_processes top task lifetime).get (find_min top)).lifetime_ns ∧
        ((update_top_processes top task lifetime).get (find_min top)).pid = task.pid ∧
        ((update_top_processes top task lifetime).get (find_min top)).uid = task.uid ∧
        cstring ((update_top_processes top task lifetime).get (find_min top)).comm =
          cstring (task.comm.take TASK_COMM_LEN) ∧
        ((update_top_processes top task lifetime).get (find_min top)).lifetime_ns = lifetime ∧
        ∀ j, j ≠ find_min top → (update_top_processes top task lifetime).get j = top.get j) ∧
      (¬ lifetime > (top.get (find_min top)).lifetime_ns →
        update_top_processes top task lifetime = top) := by
  have hadm : lifetime > (top.get (find_min top)).lifetime_ns →
      (update_top_processes top task lifetime).get (find_min top) = record_of task lifetime := by
    intro hx
    rw [update_admitted top task lifetime hx]
    exact top_array.get_set_same top _ _ (find_min_lt top)
  refine ⟨find_min_lt top, find_min_le top, find_min_first top, ?_, ?_, update_rejected top task lifetime⟩
  · constructor
    · intro hne
      by_contra hx
      exact hne (update_rejected top task lifetime hx)
    · intro hx heq
      have h1 := hadm hx
      rw [heq] at h1
      have h2 : (top.get (find_min top)).lifetime_ns = lifetime := by rw [h1]; rfl
      omega
  · intro hx
    have h1 := hadm hx
    refine ⟨update_admitted top task lifetime hx, ?_, ?_, ?_, ?_, ?_, ?_, ?_⟩
    · intro heq
      have h2 : (top.get (find_min top)).lifetime_ns = lifetime := by rw [← heq, h1]; rfl
      omega
    · rw [h1]; exact hx
    · rw [h1]; rfl
    · rw [h1]; rfl
    · rw [h1]; exact cstring_strncpy task.comm TASK_COMM_LEN
    · rw [h1]; rfl
    · intro j hj
      rw [update_admitted top task lifetime hx]
      exact top_array.get_set_other top _ _ _ hj

/-- C3 (as amended): in every state reached from the load state in which
fewer than `MAX_TOP` slots are filled, and for every offered record whose
lifetime is not zero, `update_top_processes` writes the record into the
lowest-index slot that was never written (every slot below it was written),
leaves every other slot unchanged, and the number of filled slots grows by
exactly one. -/
theorem update_fills_first_free_slot (tasks : Nat → task_struct) (es : List Event)
    (task : task_struct) (lifetime : Nat)
    (hfree : (filled (run (init tasks) es).top).length < MAX_TOP) (hpos : lifetime ≠ 0) :
    find_min (run (init tasks) es).top < MAX_TOP ∧
      find_min (run (init tasks) es).top ∉ written_slots (init tasks) es ∧
      (∀ j, j < find_min (run (init tasks) es).top → j ∈ written_slots (init tasks) es) ∧
      update_top_processes (run (init tasks) es).top task lifetime =
        (run (init tasks) es).top.set (find_min (run (init tasks) es).top)
          (record_of task lifetime) ∧
      (update_top_processes (run (init tasks) es).top task lifetime).get
          (find_min (run (init tasks) es).top) = record_of task lifetime ∧
      (∀ j, j ≠ find_min (run (init tasks) es).top →
        (update_top_processes (run (init tasks) es).top task lifetime).get j =
          (run (init tasks) es).top.get j) ∧
      (filled (update_top_processes (run (init tasks) es).top task lifetime)).length =
        (filled (run (init tasks) es).top).length + 1 := by
  obtain ⟨j0, hj0, hz0⟩ := exists_free_of_filled_lt _ hfree
  have hm := find_min_lt (run (init tasks) es).top
  have hz : ((run (init tasks) es).top.get (find_min (run (init tasks) es).top)).lifetime_ns = 0 := by
    have := find_min_le (run (init tasks) es).top j0 hj0
    omega
  have hx : lifetime > ((run (init tasks) es).top.get
      (find_min (run (init tasks) es).top)).lifetime_ns := by omega
  have hupd := update_admitted (run (init tasks) es).top task lifetime hx
  refine ⟨hm, (zero_iff_not_written tasks es _ hm).mp hz, ?_, hupd, ?_, ?_, ?_⟩
  · intro j hj
    have hlt := find_min_first (run (init tasks) es).top j hj
    by_contra hnot
    have := (zero_iff_not_written tasks es j (lt_trans hj hm)).mpr hnot
    omega
  · rw [hupd]; exact top_array.get_set_same _ _ _ hm
  · intro j hj
    rw [hupd]; exact top_array.get_set_other _ _ _ _ hj
  · rw [hupd]
    exact filled_length_set _ _ hm _ hz hpos

/-- C3 (witness): after one admitted record, a record of lifetime 9 goes to
slot 1. -/
theorem update_fills_first_free_slot_witness :
    (filled (run (init sample_tasks) [exit_event 1 17]).top).length < MAX_TOP ∧
      (9 : Nat) ≠ 0 ∧
      update_top_processes (run (init sample_tasks) [exit_event 1 17]).top (sample_tasks 2) 9 =
        (run (init sample_tasks) [exit_event 1 17]).top.set
          (find_min (run (init sample_tasks) [exit_event 1 17]).top)
          (record_of (sample_tasks 2) 9) :=
  ⟨by decide, by decide,
    (update_fills_first_free_slot sample_tasks [exit_event 1 17] (sample_tasks 2) 9
      (by decide) (by decide)).2.2.2.1⟩

/-- C3 (counterexample): in the load state, where no slot is filled, a record
of lifetime 0 is not admitted: the table and the number of filled slots stay
as they were. -/
theorem zero_lifetime_offer_is_dropped :
    (filled (run (init sample_tasks) []).top).length < MAX_TOP ∧
      update_top_processes (run (init sample_tasks) []).top (sample_tasks 1) 0 =
        (run (init sample_tasks) []).top ∧
      (filled (update_top_processes (run (init sample_tasks) []).top (sample_tasks 1) 0)).length ≠
        (filled (run (init sample_tasks) []).top).length + 1 := by
  decide

end process_telemetry_v2

/-! ## The notifier callback (`process_event`) and the read side -/

namespace process_telemetry_v2

theorem count_fork_replicate (n task now : Nat) :
    count_action PROC_EVENT_FORK (List.replicate n (fork_event task now)) = n := by
  unfold count_action
  rw [List.countP_replicate]
  simp [fork_event]

/-- C4 (as amended): after any sequence of events from the load state,
`fork_count` is the number of FORK events modulo `2 ^ 64` and `exit_count` the
number of EXIT events modulo `2 ^ 64`, so they are exactly these numbers when
fewer than `2 ^ 64` events of the kind were delivered; in every state a FORK
increments `fork_count` (wrapping at `2 ^ 64`) and leaves `exit_count`
unchanged, and an EXIT increments `exit_count` (wrapping at `2 ^ 64`) and
leaves `fork_count` unchanged, whether or not its record is admitted. -/
theorem counters_count_events_mod (tasks : Nat → task_struct) (es : List Event) :
    (run (init tasks) es).fork_count = count_action PROC_EVENT_FORK es % ULONG_MOD ∧
      (run (init tasks) es).exit_count = count_action PROC_EVENT_EXIT es % ULONG_MOD ∧
      (count_action PROC_EVENT_FORK es < ULONG_MOD →
        (run (init tasks) es).fork_count = count_action PROC_EVENT_FORK es) ∧
      (count_action PROC_EVENT_EXIT es < ULONG_MOD →
        (run (init tasks) es).exit_count = count_action PROC_EVENT_EXIT es) ∧
      (∀ (s : State) (e : Event), e.action = PROC_EVENT_FORK →
        (process_event s e).1.fork_count = (s.fork_count + 1) % ULONG_MOD ∧
          (process_event s e).1.exit_count = s.exit_count) ∧
      (∀ (s : State) (e : Event), e.action = PROC_EVENT_EXIT →
        (process_event s e).1.exit_count = (s.exit_count + 1) % ULONG_MOD ∧
          (process_event s e).1.fork_count = s.fork_count) := by
  have h := run_counts tasks es
  refine ⟨h.1, h.2, ?_, ?_, ?_, ?_⟩
  · intro hlt
    rw [h.1, Nat.mod_eq_of_lt hlt]
  · intro hlt
    rw [h.2, Nat.mod_eq_of_lt hlt]
  · intro s e he
    rw [process_event_fork s e he]
    exact ⟨rfl, rfl⟩
  · intro s e he
    rw [process_event_exit s e he]
    exact ⟨rfl, rfl⟩

/-- C4 (counterexample): after `2 ^ 64` FORK events from the load state
`fork_count` is 0, not `2 ^ 64`. -/
theorem fork_count_wraps_around :
    count_action PROC_EVENT_FORK (List.replicate (2 ^ 64) (fork_event 1 0)) = 2 ^ 64 ∧
      (run (init sample_tasks) (List.replicate (2 ^ 64) (fork_event 1 0))).fork_count = 0 ∧
      (run (init sample_tasks) (List.replicate (2 ^ 64) (fork_event 1 0))).fork_count ≠
        count_action PROC_EVENT_FORK (List.replicate (2 ^ 64) (fork_event 1 0)) := by
  have hc := count_fork_replicate (2 ^ 64) 1 0
  have hr := (run_counts sample_tasks (List.replicate (2 ^ 64) (fork_event 1 0))).1
  rw [hc] at hr
  have hz : (2 ^ 64) % ULONG_MOD = 0 := Nat.mod_self _
  rw [hz] at hr
  refine ⟨hc, hr, ?_⟩
  rw [hr, hc]
  exact (Nat.pos_pow_of_pos 64 (by decide)).ne

/-- C5 (as amended): in a state reached from the load state without any FORK
event for a task, an EXIT event for that task increments `exit_count`
(wrapping at `2 ^ 64`), leaves `fork_count` unchanged, computes the lifetime
`now - start_time` in `u64` from the start time the task memory held at load,
and offers it to `update_top_processes` like any other EXIT; the table is
unchanged exactly when that lifetime does not exceed the least lifetime in the
table. -/
theorem untracked_exit_offers_lifetime (tasks : Nat → task_struct) (es : List Event)
    (t now : Nat) (hno : ∀ e ∈ es, ¬ (e.action = PROC_EVENT_FORK ∧ e.data = t)) :
    (process_event (run (init tasks) es) (exit_event t now)).1.exit_count =
        ((run (init tasks) es).exit_count + 1) % ULONG_MOD ∧
      (process_event (run (init tasks) es) (exit_event t now)).1.fork_count =
        (run (init tasks) es).fork_count ∧
      exit_lifetime (run (init tasks) es) (exit_event t now) =
        u64_sub now (tasks t).start_time ∧
      (process_event (run (init tasks) es) (exit_event t now)).1.top =
        update_top_processes (run (init tasks) es).top ((run (init tasks) es).tasks t)
          (u64_sub now (tasks t).start_time) ∧
      ((process_event (run (init tasks) es) (exit_event t now)).1.top =
          (run (init tasks) es).top ↔
        u64_sub now (tasks t).start_time ≤
          ((run (init tasks) es).top.get (find_min (run (init tasks) es).top)).lifetime_ns) := by
  have hl : exit_lifetime (run (init tasks) es) (exit_event t now) =
      u64_sub now (tasks t).start_time := by
    unfold exit_lifetime
    show u64_sub now (((run (init tasks) es).tasks t).start_time) = _
    rw [run_tasks_of_no_fork t es (init tasks) hno]
    rfl
  have hstep := process_event_exit (run (init tasks) es) (exit_event t now) rfl
  rw [hstep]
  refine ⟨rfl, rfl, hl, ?_, ?_⟩
  · show update_top_processes _ _ (exit_lifetime _ _) = _
    rw [hl]
    rfl
  · show update_top_processes _ _ (exit_lifetime _ _) = _ ↔ _
    rw [hl]
    constructor
    · intro heq
      by_contra hx
      have hgt : u64_sub now (tasks t).start_time >
          ((run (init tasks) es).top.get (find_min (run (init tasks) es).top)).lifetime_ns := by
        omega
      have h1 := update_admitted (run (init tasks) es).top
        ((run (init tasks) es).tasks (exit_event t now).data) _ hgt
      rw [heq] at h1
      have h2 := congrArg (fun a => (a.get (find_min (run (init tasks) es).top)).lifetime_ns) h1
      simp only [top_array.get_set_same _ _ _ (find_min_lt _)] at h2
      have h3 : (record_of ((run (init tasks) es).tasks (exit_event t now).data)
          (u64_sub now (tasks t).start_time)).lifetime_ns = u64_sub now (tasks t).start_time := rfl
      omega
    · intro hle
      exact update_rejected _ _ _ (by omega)

/-- C5 (witness): an EXIT for task 42 after a FORK and an EXIT of task 1. -/
theorem untracked_exit_offers_lifetime_witness :
    (∀ e ∈ [fork_event 1 10, exit_event 1 30],
        ¬ (e.action = PROC_EVENT_FORK ∧ e.data = 42)) ∧
      exit_lifetime (run (init sample_tasks) [fork_event 1 10, exit_event 1 30])
        (exit_event 42 107) = u64_sub 107 (sample_tasks 42).start_time :=
  ⟨by decide,
    (untracked_exit_offers_lifetime sample_tasks [fork_event 1 10, exit_event 1 30] 42 107
      (by decide)).2.2.1⟩

/-- C5 (counterexample): in the load state, with no FORK processed at all, an
EXIT for task 42 at clock value 107 computes the lifetime 100 from the start
time 7 the task holds and writes it to slot 0 of the table. -/
theorem untracked_exit_changes_top :
    exit_lifetime (init sample_tasks) (exit_event 42 107) = 100 ∧
      (process_event (init sample_tasks) (exit_event 42 107)).1.top ≠ (init sample_tasks).top ∧
      lifetimes (process_event (init sample_tasks) (exit_event 42 107)).1.top =
        [100, 0, 0, 0, 0] ∧
      ((process_event (init sample_tasks) (exit_event 42 107)).1.top.get 0).pid = 42 := by
  decide

/-- C6: when a FORK event for a task is processed at clock value `t0`, then
any events none of which is a FORK for that task, then the EXIT event for the
task at clock value `t1` with `t0 ≤ t1 < 2 ^ 64`, the lifetime computed on
that EXIT and passed to `update_top_processes` is exactly `t1 - t0`. -/
theorem exit_lifetime_of_tracked_task (s : State) (t t0 t1 : Nat) (es : List Event)
    (hno : ∀ e ∈ es, ¬ (e.action = PROC_EVENT_FORK ∧ e.data = t))
    (h01 : t0 ≤ t1) (h1 : t1 < U64_MOD) :
    exit_lifetime (run (process_event s (fork_event t t0)).1 es) (exit_event t t1) = t1 - t0 ∧
      (process_event (run (process_event s (fork_event t t0)).1 es) (exit_event t t1)).1.top =
        update_top_processes (run (process_event s (fork_event t t0)).1 es).top
          ((run (process_event s (fork_event t t0)).1 es).tasks t) (t1 - t0) := by
  have hl : exit_lifetime (run (process_event s (fork_event t t0)).1 es) (exit_event t t1) =
      t1 - t0 := by
    unfold exit_lifetime
    show u64_sub t1 (((run (process_event s (fork_event t t0)).1 es).tasks t).start_time) = _
    rw [run_tasks_of_no_fork t es _ hno, process_event_fork s (fork_event t t0) rfl]
    show u64_sub t1 (if t = t then _ else _ : task_struct).start_time = _
    rw [if_pos rfl]
    exact u64_sub_exact t1 t0 h01 h1
  refine ⟨hl, ?_⟩
  rw [process_event_exit _ (exit_event t t1) rfl]
  show update_top_processes _ _ (exit_lifetime _ _) = _
  rw [hl]
  rfl

/-- C6 (witness): FORK of task 3 at 1000, events of task 4, EXIT of task 3 at
5000. -/
theorem exit_lifetime_of_tracked_task_witness :
    (∀ e ∈ [fork_event 4 2000, exit_event 4 3000],
        ¬ (e.action = PROC_EVENT_FORK ∧ e.data = 3)) ∧
      (1000 : Nat) ≤ 5000 ∧ 5000 < U64_MOD ∧
      exit_lifetime
        (run (process_event (init sample_tasks) (fork_event 3 1000)).1
          [fork_event 4 2000, exit_event 4 3000]) (exit_event 3 5000) = 5000 - 1000 :=
  ⟨by decide, by decide, by decide,
    (exit_lifetime_of_tracked_task (init sample_tasks) 3 1000 5000
      [fork_event 4 2000, exit_event 4 3000] (by decide) (by decide) (by decide)).1⟩

/-- C7: in every state reached from the load state by a sequence of events, a
slot has `lifetime_ns == 0` if and only if no admitted record was ever written
to it; the slot loop of `telemetry_show` prints exactly the written slots, in
index order, each with its rank `i + 1` and its content; `telemetry_show`
leaves the state as it was, so a second read gives the same output. -/
theorem show_reports_written_slots (tasks : Nat → task_struct) (es : List Event) :
    (∀ i, i < MAX_TOP →
        (((run (init tasks) es).top.get i).lifetime_ns = 0 ↔
          i ∉ written_slots (init tasks) es)) ∧
      (telemetry_show (run (init tasks) es)).2.1.lines =
        ((List.range MAX_TOP).filter (fun i => decide (i ∈ written_slots (init tasks) es))).map
          (fun i => ⟨i + 1, (run (init tasks) es).top.get i⟩) ∧
      (telemetry_show (run (init tasks) es)).1 = run (init tasks) es ∧
      (telemetry_show (telemetry_show (run (init tasks) es)).1).2 =
        (telemetry_show (run (init tasks) es)).2 := by
  refine ⟨fun i hi => zero_iff_not_written tasks es i hi, ?_, rfl, rfl⟩
  show show_lines _ = _
  rw [show_lines_eq]
  congr 1
  apply List.filter_congr
  intro i hi
  have hi' : i < MAX_TOP := List.mem_range.mp hi
  have hz := zero_iff_not_written tasks es i hi'
  by_cases hw : i ∈ written_slots (init tasks) es
  · have hne : ((run (init tasks) es).top.get i).lifetime_ns ≠ 0 := fun h0 => hz.mp h0 hw
    simp [hw, hne]
  · have h0 := hz.mpr hw
    simp [hw, h0]

/-- C8: for every state and every event whose action is neither FORK nor EXIT,
`process_event` leaves `fork_count`, `exit_count`, every slot of `top` and the
task memory (so the task's start time) unchanged and returns `NOTIFY_OK`. -/
theorem other_event_is_noop (s : State) (e : Event) (hf : e.action ≠ PROC_EVENT_FORK)
    (hx : e.action ≠ PROC_EVENT_EXIT) :
    (process_event s e).1 = s ∧
      (process_event s e).1.fork_count = s.fork_count ∧
      (process_event s e).1.exit_count = s.exit_count ∧
      (process_event s e).1.top = s.top ∧
      (process_event s e).1.tasks = s.tasks ∧
      (process_event s e).2 = NOTIFY_OK := by
  rw [process_event_other s e hf hx]
  exact ⟨rfl, rfl, rfl, rfl, rfl, rfl⟩

/-- C8 (witness): an event with action 2 after two events. -/
theorem other_event_is_noop_witness :
    (2 : Nat) ≠ PROC_EVENT_FORK ∧ (2 : Nat) ≠ PROC_EVENT_EXIT ∧
      (process_event (run (init sample_tasks) [fork_event 1 10, exit_event 1 30])
        { action := 2, data := 1, now := 40 }).1.top =
        (run (init sample_tasks) [fork_event 1 10, exit_event 1 30]).top ∧
      (process_event (run (init sample_tasks) [fork_event 1 10, exit_event 1 30])
        { action := 2, data := 1, now := 40 }).2 = NOTIFY_OK :=
  have h := other_event_is_noop (run (init sample_tasks) [fork_event 1 10, exit_event 1 30])
    { action := 2, data := 1, now := 40 } (by decide) (by decide)
  ⟨by decide, by decide, h.2.2.2.1, h.2.2.2.2.2⟩

end process_telemetry_v2

/-! ## The three modules side by side -/

/-- C10: for every sequence of events delivered to the three callbacks from
their load states, `fork_count` and `exit_count` of `process_telemetry.c`
equal those of `process_telemetry_v2.c`, `process_count` of
`k_proc_observer.c` equals `fork_count` of `process_telemetry_v2.c`, and in
both simpler modules `last_pid` is the pid of the task of the most recent FORK
event, or `-1` when there was none. -/
theorem simpler_modules_agree_with_v2 (tasks : Nat → task_struct) (es : List Event) :
    (process_telemetry.run tasks process_telemetry.init es).fork_count =
        (process_telemetry_v2.run (process_telemetry_v2.init tasks) es).fork_count ∧
      (process_telemetry.run tasks process_telemetry.init es).exit_count =
        (process_telemetry_v2.run (process_telemetry_v2.init tasks) es).exit_count ∧
      (k_proc_observer.run tasks k_proc_observer.init es).process_count =
        (process_telemetry_v2.run (process_telemetry_v2.init tasks) es).fork_count ∧
      (process_telemetry.run tasks process_telemetry.init es).last_pid =
        last_fork_pid tasks es ∧
      (k_proc_observer.run tasks k_proc_observer.init es).last_pid =
        last_fork_pid tasks es := by
  have h2 := process_telemetry_v2.run_counts tasks es
  have h1 := pt_run_spec tasks es
  have h0 := kpo_run_spec tasks es
  exact ⟨h1.1.trans h2.1.symm, h1.2.1.trans h2.2.symm, h0.1.trans h2.1.symm, h1.2.2, h0.2⟩

/-! ## Two CPUs: the statement-level model against the sequential one -/

namespace process_telemetry_v2

theorem top_array.set_set (top : top_array) (i : Nat) (a b : proc_record) :
    (top.set i a).set i b = top.set i b := by
  apply Subtype.ext
  simp [top_array.set, List.set_set]

/-- Run alone from an unlocked state, the ten statements of `process_event`
on an EXIT event have the effect of the sequential `process_event` and leave
the lock free. -/
theorem writer_alone (s : State) (e : Event) (he : e.action = PROC_EVENT_EXIT) (r : Reader) :
    (interleave e (List.replicate 10 Cpu.writer) (⟨s, false⟩, Writer.start, r)).1.mem =
        (process_event s e).1 ∧
      (interleave e (List.replicate 10 Cpu.writer) (⟨s, false⟩, Writer.start, r)).1.locked =
        false := by
  rw [process_event_exit s e he]
  have hm := find_min_lt s.top
  by_cases hx : exit_lifetime s e > (s.top.get (find_min s.top)).lifetime_ns
  · rw [update_admitted _ _ _ hx]
    simp [List.replicate, interleave, writer_step, Writer.start, hx, top_array.set_set,
      top_array.get_set_same _ _ _ hm, record_of]
  · rw [update_rejected _ _ _ hx]
    simp [List.replicate, interleave, writer_step, Writer.start, hx]

/-- Run alone, the six statements of `telemetry_show` write the output of the
sequential `telemetry_show`. -/
theorem reader_alone (e : Event) (sh : Shared) (w : Writer) :
    (interleave e (List.replicate 6 Cpu.reader) (sh, w, Reader.start)).2.2.out =
      (telemetry_show sh.mem).2.1 := by
  simp only [telemetry_show, show_lines, MAX_TOP, List.range, List.range.loop,
    List.filterMap_cons, List.filterMap_nil, List.replicate, interleave, reader_step,
    Reader.start]
  by_cases h0 : (sh.mem.top.get 0).lifetime_ns = 0 <;>
  by_cases h1 : (sh.mem.top.get 1).lifetime_ns = 0 <;>
  by_cases h2 : (sh.mem.top.get 2).lifetime_ns = 0 <;>
  by_cases h3 : (sh.mem.top.get 3).lifetime_ns = 0 <;>
  by_cases h4 : (sh.mem.top.get 4).lifetime_ns = 0 <;>
  simp [h0, h1, h2, h3, h4]

/-- C9 (failing run): the table holds the lifetimes 10 to 50 and the lock is
free; CPU A runs `process_event` for the EXIT of task 9 with lifetime 100 and
CPU B runs `telemetry_show`, which never waits for the lock.  With B's first
two statements placed after A's store to `top[0].pid` and before A's store to
`top[0].lifetime_ns`, both calls run to their end, memory ends as the
sequential `process_event` leaves it, and B has printed for slot 0 the pid 9
with the lifetime 10: a line that is in the output of `telemetry_show` neither
before nor after the event. -/
theorem show_prints_torn_slot :
    (interleave (exit_event 9 107) torn_schedule
        (⟨run (init sample_tasks) five_exits, false⟩, Writer.start, Reader.start)).2.1.pc = 10 ∧
      (interleave (exit_event 9 107) torn_schedule
        (⟨run (init sample_tasks) five_exits, false⟩, Writer.start, Reader.start)).2.2.pc = 6 ∧
      (interleave (exit_event 9 107) torn_schedule
        (⟨run (init sample_tasks) five_exits, false⟩, Writer.start, Reader.start)).1.mem.top =
        (process_event (run (init sample_tasks) five_exits) (exit_event 9 107)).1.top ∧
      (interleave (exit_event 9 107) torn_schedule
        (⟨run (init sample_tasks) five_exits, false⟩, Writer.start,
          Reader.start)).2.2.out.lines.head? =
        some ⟨1, { pid := 9, uid := 1000, comm := [115, 104] ++ List.replicate 14 0,
                   lifetime_ns := 10 }⟩ ∧
      (⟨1, { pid := 9, uid := 1000, comm := [115, 104] ++ List.replicate 14 0,
             lifetime_ns := 10 }⟩ : show_line) ∉
        (telemetry_show (run (init sample_tasks) five_exits)).2.1.lines ∧
      (⟨1, { pid := 9, uid := 1000, comm := [115, 104] ++ List.replicate 14 0,
             lifetime_ns := 10 }⟩ : show_line) ∉
        (telemetry_show
          (process_event (run (init sample_tasks) five_exits) (exit_event 9 107)).1).2.1.lines := by
  decide

end process_telemetry_v2
